import Mathlib

/-!
Verification development for the hm9-banking transaction core.

Shallow embedding of the Go sources:
- `internal/model/*.go`                → data model (Account, Transaction, LedgerEntry, TransactionParty)
- `internal/processor/transfer.go`     → the claim-and-execute engine (`process` and its helpers)
- `internal/handler/transfer.go`       → the intake handler (`createTransfer` and its validators)
- `internal/repository/transaction.go` → repository operations (`repoCreate`, `updateStatus`, `getByIdempotencyKey`)
- `cmd/Internal/repository/account.go` and the ledger repository → balance queries

Modelling conventions: UUID values become `Nat` (with `0` for `uuid.Nil`),
`time.Time` becomes `Nat`, and the database is a record of four lists mirroring
the four tables.  Monetary amounts travel as `String`, exactly as in the Go
structs; `decValue` gives the exact numeric reading of such a decimal string.
The conversion performed by `strconv.ParseFloat` and `fmt.Sscanf` with verb f
(decimal text to an IEEE-754 binary64 value) is modelled by `goParseFloat`
built on `float64Round`, which rounds an exact rational to 53 significant bits
with round-to-nearest, ties-to-even.  This is the point where the processor of
`internal/processor/transfer.go` leaves exact decimal arithmetic.
-/

namespace Banking

set_option maxRecDepth 100000

/-! ## Data model, from internal/model -/

/-- Lifecycle of a transaction, from the constants in internal/model/transaction.go. -/
inductive TStatus where
  | pending
  | processing
  | completed
  | failed
deriving DecidableEq, Repr

/-- Numeric rank along the lifecycle pending, processing, then a terminal state. -/
def TStatus.rank : TStatus → Nat
  | .pending => 0
  | .processing => 1
  | .completed => 2
  | .failed => 2

/-- A status is terminal when it is completed or failed. -/
def TStatus.isTerminal : TStatus → Bool
  | .completed => true
  | .failed => true
  | _ => false

/-- Account, from internal/model/account.go.  Note that there is no stored
balance field: balances exist only as sums over ledger entries. -/
structure Account where
  id : Nat
  accountNumber : String
  accountType : String
  currency : String
  status : String
deriving DecidableEq, Repr

/-- Model of Account.IsSystemAccount from internal/model/account.go. -/
def Account.isSystemAccount (a : Account) : Bool :=
  a.accountType == "equity"

/-- Transaction, from internal/model/transaction.go (metadata omitted). -/
structure Transaction where
  id : Nat
  idempotencyKey : String
  txType : String
  status : TStatus
  reference : String := ""
  initiatedAt : Nat
  processedAt : Option Nat := none
  completedAt : Option Nat := none
  errorMessage : String := ""
  amount : String
  currency : String
  fromAccountID : Nat := 0
  toAccountID : Nat := 0
deriving DecidableEq, Repr

/-- TransactionParty, from internal/model/transaction.go. -/
structure TransactionParty where
  id : Nat
  transactionID : Nat
  accountID : Nat
  role : String
deriving DecidableEq, Repr

/-- LedgerEntry, from internal/model/transaction.go.  The amount is a signed
decimal string, negative for a debit and positive for a credit. -/
structure LedgerEntry where
  id : Nat
  transactionID : Nat
  accountID : Nat
  amount : String
  entryType : String
  createdAt : Nat
deriving DecidableEq, Repr

/-- The shared durable store: the four tables of the schema. -/
structure DB where
  accounts : List Account
  transactions : List Transaction
  parties : List TransactionParty
  ledger : List LedgerEntry
deriving DecidableEq, Repr

/-! ## Decimal strings

The exact numeric reading of the decimal strings that carry amounts, matching
what the DECIMAL column of PostgreSQL and strconv.ParseFloat accept for plain
decimal numerals: an optional sign, digits, and an optional fractional part. -/

/-- Value of a digit list read in base ten. -/
def digitsToNat (cs : List Char) : Nat :=
  cs.foldl (fun n c => 10 * n + (c.toNat - 48)) 0

/-- All characters are decimal digits. -/
def isDigitList (cs : List Char) : Bool :=
  cs.all (fun c => c.isDigit)

/-- Parse an unsigned decimal numeral `digits [. digits]` to its exact value.
At least one digit must be present overall, as in the Go float syntax. -/
def parseUnsigned (cs : List Char) : Option ℚ :=
  let w := cs.takeWhile (fun c => c != '.')
  let rest := cs.dropWhile (fun c => c != '.')
  match rest with
  | [] =>
    if !w.isEmpty && isDigitList w then some ((digitsToNat w : ℚ)) else none
  | _ :: f =>
    if (!w.isEmpty || !f.isEmpty) && isDigitList w && isDigitList f then
      some ((digitsToNat w : ℚ) + (digitsToNat f : ℚ) / (10 ^ f.length))
    else none

/-- Exact value of a signed decimal string, the reading shared by the DECIMAL
column and by the plain decimal inputs of the Go parsers. -/
def decValue (s : String) : Option ℚ :=
  match s.data with
  | [] => none
  | c :: rest =>
    if c == '-' then (parseUnsigned rest).map (fun q => -q)
    else if c == '+' then parseUnsigned rest
    else parseUnsigned (c :: rest)

/-- Numeric value of a stored ledger entry; entries written by this system
always carry well-formed decimal strings, and the column type enforces it. -/
def entryVal (e : LedgerEntry) : ℚ :=
  (decValue e.amount).getD 0

/-! ## The binary64 conversion used by the processor

`internal/processor/transfer.go` scans the SQL balance sum into a float64 and
parses the amount string with verb f of fmt.Sscanf, so both sides of its funds
comparison pass through IEEE-754 binary64.  The functions below model that
conversion exactly for finite values: round to 53 significant bits with
round-to-nearest, ties-to-even, subnormal granularity below 2 ^ (-1022). -/

/-- Structural base-two logarithm with an explicit fuel bound. -/
def log2Fuel : Nat → Nat → Nat
  | 0, _ => 0
  | fuel + 1, n => if 2 ≤ n then log2Fuel fuel (n / 2) + 1 else 0

/-- Floor of the base-two logarithm of a natural number.  The fuel 1100
exceeds every exponent below the binary64 overflow threshold, which is the
only range where callers depend on the exact value; past it the rounding
granularity saturates and the overflow check of `goParseFloat` takes over. -/
def natLog2 (n : Nat) : Nat := log2Fuel 1100 n

/-- Floor of the base-two logarithm of a positive rational. -/
def qfloorLog2 (q : ℚ) : ℤ :=
  if 1 ≤ q then (natLog2 q.floor.toNat : ℤ)
  else
    let m := natLog2 (1 / q).floor.toNat
    if q = 1 / ((2 ^ m : ℕ) : ℚ) then -(m : ℤ) else -((m : ℤ) + 1)

/-- Round a rational to the nearest integer, ties to the even neighbour. -/
def roundHalfEven (x : ℚ) : ℤ :=
  let n := x.floor
  let r := x - (n : ℚ)
  if r < 1 / 2 then n
  else if 1 / 2 < r then n + 1
  else if n % 2 = 0 then n else n + 1

/-- Correctly rounded conversion of an exact rational to binary64, as a
rational.  Overflow past the finite range is handled by the caller. -/
def float64Round (q : ℚ) : ℚ :=
  if q = 0 then 0
  else
    let a := |q|
    let e := qfloorLog2 a
    let p : ℤ := max (e - 52) (-1074)
    let u : ℚ := (2 : ℚ) ^ p
    let n := roundHalfEven (a / u)
    (if q < 0 then -1 else 1) * ((n : ℚ) * u)

/-- Result of the Go float parsers: the special values or a finite binary64
value given by its exact rational reading. -/
inductive FVal where
  | nan
  | inf (neg : Bool)
  | finite (q : ℚ)
deriving DecidableEq, Repr

/-- Case-insensitive comparison of a character list against a lowercase word. -/
def lowerEq (cs : List Char) (word : List Char) : Bool :=
  cs.map Char.toLower == word

/-- Split a mantissa from an optional exponent part at the first e or E. -/
def breakOnExp (cs : List Char) : List Char × Option (List Char) :=
  match cs.span (fun c => !(c == 'e' || c == 'E')) with
  | (m, []) => (m, none)
  | (m, _ :: rest) => (m, some rest)

/-- Parse an optionally signed digit string to an integer. -/
def parseSignedInt (cs : List Char) : Option ℤ :=
  match cs with
  | '-' :: r => if !r.isEmpty && isDigitList r then some (-(digitsToNat r : ℤ)) else none
  | '+' :: r => if !r.isEmpty && isDigitList r then some ((digitsToNat r : ℤ)) else none
  | r => if !r.isEmpty && isDigitList r then some ((digitsToNat r : ℤ)) else none

/-- Exact value of a signed decimal mantissa with optional decimal exponent. -/
def parseMantissaExp (cs : List Char) : Option ℚ :=
  let me := breakOnExp cs
  let mval : Option ℚ :=
    match me.1 with
    | '-' :: r => (parseUnsigned r).map (fun q => -q)
    | '+' :: r => parseUnsigned r
    | r => parseUnsigned r
  match mval, me.2 with
  | some q, none => some q
  | some q, some e =>
    match parseSignedInt e with
    | some z => some (q * (10 : ℚ) ^ z)
    | none => none
  | none, _ => none

/-- Model of strconv.ParseFloat with bitSize 64 (also reached through
fmt.Sscanf with verb f): the case-insensitive specials NaN, Inf and Infinity,
otherwise a decimal numeral with optional exponent, correctly rounded to
binary64.  A range error (overflow) surfaces as a failed parse, which is how
both call sites in the repository treat it.  Hexadecimal floats and digit
separators are outside the inputs this system can store and are not modelled. -/
def goParseFloat (s : String) : Option FVal :=
  match s.data with
  | [] => none
  | cs =>
    if lowerEq cs ['n', 'a', 'n'] then some .nan
    else
      let sr : Bool × List Char :=
        match cs with
        | '-' :: r => (true, r)
        | '+' :: r => (false, r)
        | r => (false, r)
      if lowerEq sr.2 ['i', 'n', 'f'] || lowerEq sr.2 ['i', 'n', 'f', 'i', 'n', 'i', 't', 'y'] then
        some (.inf sr.1)
      else
        match parseMantissaExp cs with
        | none => none
        | some q =>
          let r := float64Round q
          if (((2 ^ 1024 : ℕ) : ℚ)) ≤ |r| then none else some (.finite r)

/-! ## Ledger store operations

From cmd/Internal/repository/account.go and the ledger repository file. -/

/-- Balance record returned by the balance queries; the balance field holds
the exact numeric value that the DECIMAL sum renders as a string. -/
structure AccountBalance where
  accountID : Nat
  balance : ℚ
  currency : String
  asOf : Nat
deriving DecidableEq, Repr

/-- Model of AccountRepository.GetByID: SELECT one account row by id. -/
def findAccount (db : DB) (id : Nat) : Option Account :=
  db.accounts.find? (fun a => a.id == id)

/-- Row-by-row SQL aggregation COALESCE of SUM of amount with 0. -/
def sqlSum (l : List LedgerEntry) : ℚ :=
  l.foldl (fun s e => s + entryVal e) 0

/-- Model of AccountRepository.GetBalance from cmd/Internal/repository/account.go:
check the account exists, then sum all ledger entries of the account. -/
def getBalance (db : DB) (id : Nat) (now : Nat) : Option AccountBalance :=
  match findAccount db id with
  | none => none
  | some account =>
    some { accountID := id
           balance := sqlSum (db.ledger.filter (fun e => e.accountID == id))
           currency := account.currency
           asOf := now }

/-- Model of LedgerRepository.GetBalanceAtTime: sum the ledger entries of the
account created at or before the supplied timestamp. -/
def getBalanceAtTime (db : DB) (accountID : Nat) (asOf : Nat) : ℚ :=
  sqlSum (db.ledger.filter (fun e => e.accountID == accountID && decide (e.createdAt ≤ asOf)))

/-! ## Transaction repository, from internal/repository/transaction.go -/

/-- Model of TransactionRepository.GetByIdempotencyKey: SELECT by key. -/
def getByIdempotencyKey (db : DB) (key : String) : Option Transaction :=
  db.transactions.find? (fun t => t.idempotencyKey == key)

/-- Model of TransactionRepository.Create: inserting the transaction trips
the uniqueness constraint on idempotency_key when a row with the same key
exists, which the repository maps to ErrTransactionExists; otherwise the
transaction and its parties are committed together. -/
def repoCreate (db : DB) (tx : Transaction) (ps : List TransactionParty) : Except String DB :=
  if db.transactions.any (fun t => t.idempotencyKey == tx.idempotencyKey) then
    .error "transaction with this idempotency key already exists"
  else
    .ok { db with transactions := db.transactions ++ [tx], parties := db.parties ++ ps }

/-- Per-row effect of the conditional UPDATE that claims a transaction:
SET status = processing, processed_at WHERE id matches AND status = pending. -/
def claimUpdate (txid now : Nat) (t : Transaction) : Transaction :=
  if t.id == txid && t.status == TStatus.pending then
    { t with status := TStatus.processing, processedAt := some now }
  else t

/-- Per-row effect of the UPDATE that completes a transaction:
SET status = completed, completed_at WHERE id matches AND status = processing. -/
def completeUpdate (txid now : Nat) (t : Transaction) : Transaction :=
  if t.id == txid && t.status == TStatus.processing then
    { t with status := TStatus.completed, completedAt := some now }
  else t

/-- Per-row effect of the UPDATE that fails a transaction:
SET status = failed, completed_at, error_message WHERE id AND status = processing. -/
def failUpdate (txid now : Nat) (msg : String) (t : Transaction) : Transaction :=
  if t.id == txid && t.status == TStatus.processing then
    { t with status := TStatus.failed, completedAt := some now, errorMessage := msg }
  else t

/-- Model of TransactionRepository.UpdateStatus: each target status runs a
conditional UPDATE guarded by the required prior status, any other target is
rejected, and zero affected rows surface as ErrInvalidTransactionState. -/
def updateStatus (db : DB) (id : Nat) (status : TStatus) (errorMessage : String) (now : Nat) :
    Except String DB :=
  match status with
  | .processing =>
    if db.transactions.any (fun t => t.id == id && t.status == TStatus.pending) then
      .ok { db with transactions := db.transactions.map (claimUpdate id now) }
    else .error "invalid transaction state transition"
  | .completed =>
    if db.transactions.any (fun t => t.id == id && t.status == TStatus.processing) then
      .ok { db with transactions := db.transactions.map (completeUpdate id now) }
    else .error "invalid transaction state transition"
  | .failed =>
    if db.transactions.any (fun t => t.id == id && t.status == TStatus.processing) then
      .ok { db with transactions := db.transactions.map (failUpdate id now errorMessage) }
    else .error "invalid transaction state transition"
  | .pending => .error "invalid transaction state transition"

/-! ## The claim-and-execute engine, from internal/processor/transfer.go -/

/-- Result record of TransferProcessor.Process. -/
structure ProcessResult where
  success : Bool
  errorMessage : String
deriving DecidableEq, Repr

/-- Model of getParties: SELECT the transaction parties of one transaction. -/
def getParties (db : DB) (transactionID : Nat) : List TransactionParty :=
  db.parties.filter (fun p => p.transactionID == transactionID)

/-- The party loop of Process: the last source role and the last destination
role win, and a missing role leaves the zero (nil) account id. -/
def resolveParties (ps : List TransactionParty) : Nat × Nat :=
  ps.foldl
    (fun sd p =>
      if p.role == "source" then (p.accountID, sd.2)
      else if p.role == "destination" then (sd.1, p.accountID)
      else sd)
    (0, 0)

/-- Exact value of the SQL SUM over the ledger entries of one account. -/
def ledgerSumQ (db : DB) (accountID : Nat) : ℚ :=
  sqlSum (db.ledger.filter (fun e => e.accountID == accountID))

/-- Model of getBalanceForUpdate: the DECIMAL sum is scanned into a Go
float64 variable, so the exact sum is rounded to binary64 on the way out. -/
def getBalanceForUpdate (db : DB) (accountID : Nat) : ℚ :=
  float64Round (ledgerSumQ db accountID)

/-- Model of hasSufficientFunds: parse the amount string with fmt.Sscanf verb
f (a float64 conversion); a parse failure reports insufficient funds, and the
comparison balance >= amount is the IEEE one, false whenever NaN appears. -/
def hasSufficientFunds (balance : ℚ) (amountStr : String) : Bool :=
  match goParseFloat amountStr with
  | none => false
  | some .nan => false
  | some (.inf neg) => neg
  | some (.finite a) => a ≤ balance

/-- Model of buildTransferEntries (identical in internal/processor/transfer.go
and the ledger repository): exactly two entries, the debit carrying the
amount string with a leading minus on the source and the credit carrying the
amount string on the destination, one shared creation instant, fresh ids. -/
def buildTransferEntries (transactionID fromAccountID toAccountID : Nat)
    (amount : String) (now id1 id2 : Nat) : List LedgerEntry :=
  [ { id := id1
      transactionID := transactionID
      accountID := fromAccountID
      amount := "-" ++ amount
      entryType := "debit"
      createdAt := now },
    { id := id2
      transactionID := transactionID
      accountID := toAccountID
      amount := amount
      entryType := "credit"
      createdAt := now } ]

/-- Model of failTransaction: the conditional UPDATE to failed, followed by
the commit the caller performs on this branch. -/
def failTransaction (db : DB) (txid now : Nat) (msg : String) : DB :=
  { db with transactions := db.transactions.map (failUpdate txid now msg) }

/-- Model of completeTransaction: the conditional UPDATE to completed, with
zero affected rows surfacing as ErrInvalidTransactionState. -/
def completeTransaction (db : DB) (txid now : Nat) : Except String DB :=
  if db.transactions.any (fun t => t.id == txid && t.status == TStatus.processing) then
    .ok { db with transactions := db.transactions.map (completeUpdate txid now) }
  else .error "invalid transaction state transition"

/-- Model of TransferProcessor.Process.  The whole body runs inside one
database transaction: an error rolls every write back (the Except.error
carries the system error and the state reverts to the input), while the
returned database of the ok case is the committed state.  The claim step is
the conditional UPDATE RETURNING of claimTransaction; no returned row means
the transaction is absent or not pending and yields the benign result. -/
def process (db : DB) (transactionID : Nat) (now id1 id2 : Nat) :
    Except String (DB × ProcessResult) :=
  match db.transactions.find? (fun t => t.id == transactionID && t.status == TStatus.pending) with
  | none => .ok (db, { success := true, errorMessage := "transaction already processed or not found" })
  | some t0 =>
    let db1 : DB := { db with transactions := db.transactions.map (claimUpdate transactionID now) }
    let tx := claimUpdate transactionID now t0
    let sd := resolveParties (getParties db1 transactionID)
    if sd.1 == 0 || sd.2 == 0 then
      .ok (failTransaction db1 transactionID now "invalid transaction parties",
           { success := false, errorMessage := "invalid transaction parties" })
    else if tx.amount == "" then
      .ok (failTransaction db1 transactionID now "invalid amount in transaction",
           { success := false, errorMessage := "invalid amount" })
    else if !hasSufficientFunds (getBalanceForUpdate db1 sd.1) tx.amount then
      .ok (failTransaction db1 transactionID now "insufficient funds",
           { success := false, errorMessage := "insufficient funds" })
    else
      let entries := buildTransferEntries transactionID sd.1 sd.2 tx.amount now id1 id2
      let db2 : DB := { db1 with ledger := db1.ledger ++ entries }
      match completeTransaction db2 transactionID now with
      | .error e => .error e
      | .ok db3 => .ok (db3, { success := true, errorMessage := "" })

/-! ## The intake handler, from internal/handler/transfer.go -/

/-- Payload of POST transfers, from internal/model/transaction.go. -/
structure CreateTransferRequest where
  fromAccountID : Nat
  toAccountID : Nat
  amount : String
  currency : String
  reference : String := ""
deriving DecidableEq, Repr

/-- Model of CreateTransferRequest.Validate from internal/model/transaction.go. -/
def CreateTransferRequest.validate (r : CreateTransferRequest) : Except String Unit :=
  if r.fromAccountID == 0 then .error "invalid source account"
  else if r.toAccountID == 0 then .error "invalid destination account"
  else if r.fromAccountID == r.toAccountID then
    .error "source and destination accounts must be different"
  else if r.amount == "" then .error "invalid amount"
  else if r.currency.length != 3 then .error "invalid currency: must be 3-letter ISO code"
  else .ok ()

/-- Model of strings.TrimSpace restricted to the whitespace that can appear
in these payloads. -/
def goTrimSpace (s : String) : String :=
  let ws := fun c => c == ' ' || c == '\t' || c == '\n' || c == '\r'
  ⟨((s.data.dropWhile ws).reverse.dropWhile ws).reverse⟩

/-- Model of handler.validateAmount (identical in both handler versions):
trim, reject the empty string, parse with strconv.ParseFloat bitSize 64
rejecting a parse or range error, then reject val <= 0 — a comparison that is
false for NaN and for positive infinity. -/
def validateAmount (amount : String) : Except String Unit :=
  let a := goTrimSpace amount
  if a == "" then .error "invalid amount"
  else
    match goParseFloat a with
    | none => .error "invalid amount"
    | some .nan => .ok ()
    | some (.inf neg) => if neg then .error "invalid amount" else .ok ()
    | some (.finite v) => if v ≤ 0 then .error "invalid amount" else .ok ()

/-- Outcome of the HTTP handler: an accepted transfer response carrying the
transaction id, status and creation time, or an error response. -/
inductive HandlerOut where
  | accepted (transactionID : Nat) (status : TStatus) (createdAt : Nat)
  | rejected (statusCode : Nat) (message : String)
deriving DecidableEq, Repr

/-- Model of TransferHandler.CreateTransfer from internal/handler/transfer.go.
The fresh identifiers drawn from uuid.New and the clock reading are passed in
as txId, p1, p2 and now.  The raced argument models a concurrent request with
the same endpoint committing its insert between our idempotency check and our
insert: exactly the lost race the unique constraint turns into
ErrTransactionExists, answered by re-fetching the row by key. -/
def createTransfer (db : DB) (idempotencyKey : String) (req : CreateTransferRequest)
    (txId p1 p2 now : Nat) (raced : Option Transaction) : DB × HandlerOut :=
  if idempotencyKey == "" then
    (db, .rejected 400 "Idempotency-Key header is required")
  else
    match getByIdempotencyKey db idempotencyKey with
    | some t => (db, .accepted t.id t.status t.initiatedAt)
    | none =>
      match req.validate with
      | .error e => (db, .rejected 400 e)
      | .ok _ =>
        match validateAmount req.amount with
        | .error e => (db, .rejected 400 e)
        | .ok _ =>
          match findAccount db req.fromAccountID with
          | none => (db, .rejected 400 "Source account not found")
          | some fromAccount =>
            if fromAccount.status != "active" then
              (db, .rejected 400 "Source account is not active")
            else
              match findAccount db req.toAccountID with
              | none => (db, .rejected 400 "Destination account not found")
              | some toAccount =>
                if toAccount.status != "active" then
                  (db, .rejected 400 "Destination account is not active")
                else if fromAccount.currency != toAccount.currency then
                  (db, .rejected 400 "Currency mismatch between accounts")
                else if req.currency != fromAccount.currency then
                  (db, .rejected 400 "Request currency does not match account currency")
                else
                  let tx : Transaction :=
                    { id := txId
                      idempotencyKey := idempotencyKey
                      txType := "transfer"
                      status := TStatus.pending
                      reference := req.reference
                      initiatedAt := now
                      amount := req.amount
                      currency := req.currency
                      fromAccountID := req.fromAccountID
                      toAccountID := req.toAccountID }
                  let ps : List TransactionParty :=
                    [ { id := p1, transactionID := txId, accountID := req.fromAccountID, role := "source" },
                      { id := p2, transactionID := txId, accountID := req.toAccountID, role := "destination" } ]
                  let db1 : DB :=
                    match raced with
                    | none => db
                    | some r => { db with transactions := db.transactions ++ [r] }
                  match repoCreate db1 tx ps with
                  | .error _ =>
                    match getByIdempotencyKey db1 idempotencyKey with
                    | none => (db1, .rejected 500 "Failed to create transfer")
                    | some t => (db1, .accepted t.id t.status t.initiatedAt)
                  | .ok db2 => (db2, .accepted tx.id tx.status tx.initiatedAt)

/-- All account-level intake checks of CreateTransfer pass: both accounts
exist and are active, their currencies agree, and the request currency
matches. -/
def accountChecksOK (db : DB) (req : CreateTransferRequest) : Prop :=
  ∃ fa ta,
    findAccount db req.fromAccountID = some fa ∧
    findAccount db req.toAccountID = some ta ∧
    fa.status = "active" ∧ ta.status = "active" ∧
    fa.currency = ta.currency ∧ req.currency = fa.currency

/-! ## Concrete stores used by the witnesses and counterexamples -/

/-- A completed transfer record. -/
def txDone : Transaction :=
  { id := 9, idempotencyKey := "k3", txType := "transfer", status := TStatus.completed,
    initiatedAt := 1, amount := "5.00", currency := "NOK" }

/-- A store holding one already-completed transfer. -/
def dbDone : DB :=
  { accounts := [], transactions := [txDone], parties := [], ledger := [] }

/-- A pending transfer of 4398046511104.0001 from account 10 to account 20. -/
def txTight : Transaction :=
  { id := 1, idempotencyKey := "k-tight", txType := "transfer", status := TStatus.pending,
    initiatedAt := 50, amount := "4398046511104.0001", currency := "NOK",
    fromAccountID := 10, toAccountID := 20 }

/-- A store with a claim-ready transfer of 4398046511104.0001 against a
source whose ledger sums to exactly 4398046511104 (two to the power 42): the
exact balance is short by a ten-thousandth, but both sides of the funds
comparison round to the same binary64 value. -/
def dbTight : DB :=
  { accounts :=
      [{ id := 10, accountNumber := "NO111", accountType := "checking",
         currency := "NOK", status := "active" },
       { id := 20, accountNumber := "NO222", accountType := "savings",
         currency := "NOK", status := "active" }]
    transactions := [txTight]
    parties :=
      [{ id := 31, transactionID := 1, accountID := 10, role := "source" },
       { id := 32, transactionID := 1, accountID := 20, role := "destination" }]
    ledger :=
      [{ id := 41, transactionID := 99, accountID := 10,
         amount := "4398046511104.0000", entryType := "credit", createdAt := 40 }] }

/-- A pending transfer of 100.00 out of the bank equity account. -/
def txEquity : Transaction :=
  { id := 2, idempotencyKey := "k-eq", txType := "transfer", status := TStatus.pending,
    initiatedAt := 10, amount := "100.00", currency := "NOK",
    fromAccountID := 70, toAccountID := 20 }

/-- A store with a pending transfer of 100.00 out of the bank equity account,
which is a system account and holds no ledger entries. -/
def dbEquity : DB :=
  { accounts :=
      [{ id := 70, accountNumber := "BANK-EQUITY-001", accountType := "equity",
         currency := "NOK", status := "active" },
       { id := 20, accountNumber := "NO222", accountType := "savings",
         currency := "NOK", status := "active" }]
    transactions := [txEquity]
    parties :=
      [{ id := 33, transactionID := 2, accountID := 70, role := "source" },
       { id := 34, transactionID := 2, accountID := 20, role := "destination" }]
    ledger := [] }

/-- An empty store holding only two active customer accounts. -/
def dbTwoAccounts : DB :=
  { accounts :=
      [{ id := 10, accountNumber := "NO1", accountType := "checking",
         currency := "NOK", status := "active" },
       { id := 20, accountNumber := "NO2", accountType := "savings",
         currency := "NOK", status := "active" }]
    transactions := []
    parties := []
    ledger := [] }

/-- A processing transaction, claim-ready for completion. -/
def txWorking : Transaction :=
  { id := 5, idempotencyKey := "k5", txType := "transfer", status := TStatus.processing,
    initiatedAt := 1, amount := "1.00", currency := "NOK" }

/-- A failed (terminal) transaction. -/
def txFailed : Transaction :=
  { id := 7, idempotencyKey := "k7", txType := "transfer", status := TStatus.failed,
    initiatedAt := 2, amount := "2.00", currency := "NOK" }

/-- A store with one processing and one failed transaction, for the
status-transition witness. -/
def dbMixed : DB :=
  { accounts := [], transactions := [txWorking, txFailed], parties := [], ledger := [] }

/-- A store with one account and two ledger entries on it, for the balance
witness. -/
def dbLedger : DB :=
  { accounts :=
      [{ id := 10, accountNumber := "NO1", accountType := "checking",
         currency := "NOK", status := "active" }]
    transactions := []
    parties := []
    ledger :=
      [{ id := 1, transactionID := 3, accountID := 10, amount := "100.00",
         entryType := "credit", createdAt := 5 },
       { id := 2, transactionID := 4, accountID := 10, amount := "-40.00",
         entryType := "debit", createdAt := 8 }] }

/-- The processing transaction after the completing update at instant 9. -/
def txWorkingDone : Transaction :=
  { txWorking with status := TStatus.completed, completedAt := some 9 }

/-- The mixed store after completing transaction 5 at instant 9. -/
def dbMixedDone : DB :=
  { dbMixed with transactions := [txWorkingDone, txFailed] }

/-! ## Helper lemmas -/

/-- The character data of an appended string is the appended character data. -/
theorem data_append (s t : String) : (s ++ t).data = s.data ++ t.data := rfl

/-- An unsigned numeral cannot start with a character that is neither a digit
nor the decimal point. -/
theorem parseUnsigned_cons_nondigit (c : Char) (cs : List Char)
    (hd : c.isDigit = false) (hp : (c != '.') = true) :
    parseUnsigned (c :: cs) = none := by
  unfold parseUnsigned
  simp only [List.takeWhile_cons, List.dropWhile_cons, hp, if_true]
  cases hrest : List.dropWhile (fun c => c != '.') cs with
  | nil => simp [isDigitList, hd]
  | cons x xs => simp [isDigitList, hd]

/-- A string whose data parses as an unsigned numeral reads as that value. -/
theorem decValue_unsigned (s : String) (q : ℚ) (h : parseUnsigned s.data = some q) :
    decValue s = some q := by
  unfold decValue
  cases hdata : s.data with
  | nil => rw [hdata] at h; simp [parseUnsigned, isDigitList, List.takeWhile, List.dropWhile] at h
  | cons c rest =>
    rw [hdata] at h
    by_cases hneg : c = '-'
    · rw [hneg] at h
      rw [parseUnsigned_cons_nondigit '-' rest (by decide) (by decide)] at h
      exact absurd h (by simp)
    · by_cases hpos : c = '+'
      · rw [hpos] at h
        rw [parseUnsigned_cons_nondigit '+' rest (by decide) (by decide)] at h
        exact absurd h (by simp)
      · simp only [beq_iff_eq, hneg, hpos, if_false, h]

/-- Prefixing a minus sign to an unsigned numeral negates its reading. -/
theorem decValue_neg_unsigned (s : String) (q : ℚ) (h : parseUnsigned s.data = some q) :
    decValue ("-" ++ s) = some (-q) := by
  have hdata : ("-" ++ s).data = '-' :: s.data := rfl
  unfold decValue
  rw [hdata]
  simp [h]

/-- Folding addition of entry values equals the starting value plus the sum. -/
theorem foldl_add_entryVal (l : List LedgerEntry) (a : ℚ) :
    l.foldl (fun s e => s + entryVal e) a = a + (l.map entryVal).sum := by
  induction l generalizing a with
  | nil => simp
  | cons x xs ih => simp [List.foldl_cons, ih, add_assoc]

/-! ## Claim C1 -/

/-- C1: for every transfer processed to completion, buildTransferEntries
constructs exactly two ledger entries for the transaction, a debit on the
source whose amount is the negation of the transfer amount and a credit of
the same magnitude on the destination, both carrying the transaction
reference and one shared timestamp, and the exact values of the two entry
amounts sum to zero.  The hypothesis states that the transfer amount is an
unsigned decimal numeral, which is exactly what a completed transfer carries:
the ledger insert of the prefixed-minus debit string must have been accepted
by the DECIMAL column for the processing transaction to commit. -/
theorem transfer_entries_balanced (transactionID fromAccountID toAccountID : Nat)
    (amount : String) (now id1 id2 : Nat) (q : ℚ)
    (h : parseUnsigned amount.data = some q) :
    ∃ d c,
      buildTransferEntries transactionID fromAccountID toAccountID amount now id1 id2 = [d, c] ∧
      d.transactionID = transactionID ∧ c.transactionID = transactionID ∧
      d.accountID = fromAccountID ∧ c.accountID = toAccountID ∧
      d.amount = "-" ++ amount ∧ c.amount = amount ∧
      d.entryType = "debit" ∧ c.entryType = "credit" ∧
      d.createdAt = now ∧ c.createdAt = now ∧
      decValue d.amount = some (-q) ∧ decValue c.amount = some q ∧
      entryVal d + entryVal c = 0 := by
  refine ⟨_, _, rfl, rfl, rfl, rfl, rfl, rfl, rfl, rfl, rfl, rfl, rfl, ?_, ?_, ?_⟩
  · exact decValue_neg_unsigned amount q h
  · exact decValue_unsigned amount q h
  · show (decValue ("-" ++ amount)).getD 0 + (decValue amount).getD 0 = 0
    rw [decValue_neg_unsigned amount q h, decValue_unsigned amount q h]
    simp

/-- Witness: the two entries built for amount 250.00 at a concrete input. -/
theorem transfer_entries_balanced_witness :
    parseUnsigned "250.00".data = some 250 ∧
    ∃ d c,
      buildTransferEntries 1 2 3 "250.00" 7 10 11 = [d, c] ∧
      d.transactionID = 1 ∧ c.transactionID = 1 ∧
      d.accountID = 2 ∧ c.accountID = 3 ∧
      d.amount = "-" ++ "250.00" ∧ c.amount = "250.00" ∧
      d.entryType = "debit" ∧ c.entryType = "credit" ∧
      d.createdAt = 7 ∧ c.createdAt = 7 ∧
      decValue d.amount = some (-250) ∧ decValue c.amount = some 250 ∧
      entryVal d + entryVal c = 0 := by
  have h : parseUnsigned "250.00".data = some 250 := by with_unfolding_all rfl
  exact ⟨h, transfer_entries_balanced 1 2 3 "250.00" 7 10 11 250 h⟩

/-! ## Claim C3 -/

/-- C3: invoking Process on a transaction identifier that is not pending in
the store, because it is completed, failed, already claimed or absent, is a
benign no-op: the call returns a success result with the already-handled
message, leaves the whole database unchanged, and a second invocation on the
same identifier behaves the same way. -/
theorem process_nonpending_benign (db : DB) (transactionID now id1 id2 now2 j1 j2 : Nat)
    (h : ∀ t ∈ db.transactions, t.id = transactionID → t.status ≠ TStatus.pending) :
    process db transactionID now id1 id2 =
      .ok (db, { success := true, errorMessage := "transaction already processed or not found" }) ∧
    process db transactionID now2 j1 j2 =
      .ok (db, { success := true, errorMessage := "transaction already processed or not found" }) := by
  have hf : db.transactions.find?
      (fun t => t.id == transactionID && t.status == TStatus.pending) = none := by
    rw [List.find?_eq_none]
    intro t ht
    simp only [Bool.and_eq_true, beq_iff_eq, not_and]
    intro h1 h2
    exact h t ht h1 h2
  constructor <;> (unfold process; rw [hf])

/-- Witness: a store holding one completed transfer; the engine invocation on
its identifier returns the benign result and changes nothing. -/
theorem process_nonpending_benign_witness :
    (∀ t ∈ dbDone.transactions, t.id = 9 → t.status ≠ TStatus.pending) ∧
    process dbDone 9 30 71 72 =
      .ok (dbDone,
        { success := true, errorMessage := "transaction already processed or not found" }) := by
  refine ⟨by decide, ?_⟩
  exact (process_nonpending_benign dbDone 9 30 71 72 30 71 72 (by decide)).1

/-! ## Claim C5 -/

/-- The claim update never lowers the rank of a row. -/
theorem claimUpdate_rank_le (txid now : Nat) (t : Transaction) :
    t.status.rank ≤ (claimUpdate txid now t).status.rank := by
  unfold claimUpdate
  split
  · next hcond =>
    have hst : t.status = TStatus.pending := by
      have := (Bool.and_eq_true _ _).mp hcond
      exact beq_iff_eq.mp this.2
    rw [hst]
    exact Nat.zero_le _
  · exact le_rfl

/-- The completion update never lowers the rank of a row. -/
theorem completeUpdate_rank_le (txid now : Nat) (t : Transaction) :
    t.status.rank ≤ (completeUpdate txid now t).status.rank := by
  unfold completeUpdate
  split
  · next hcond =>
    have hst : t.status = TStatus.processing := by
      have := (Bool.and_eq_true _ _).mp hcond
      exact beq_iff_eq.mp this.2
    rw [hst]
    simp [TStatus.rank]
  · exact le_rfl

/-- The failure update never lowers the rank of a row. -/
theorem failUpdate_rank_le (txid now : Nat) (msg : String) (t : Transaction) :
    t.status.rank ≤ (failUpdate txid now msg t).status.rank := by
  unfold failUpdate
  split
  · next hcond =>
    have hst : t.status = TStatus.processing := by
      have := (Bool.and_eq_true _ _).mp hcond
      exact beq_iff_eq.mp this.2
    rw [hst]
    simp [TStatus.rank]
  · exact le_rfl

/-- The claim update leaves a terminal row untouched. -/
theorem claimUpdate_terminal (txid now : Nat) (t : Transaction)
    (h : t.status.isTerminal = true) : claimUpdate txid now t = t := by
  unfold claimUpdate
  split
  · next hcond =>
    have hst : t.status = TStatus.pending := by
      have := (Bool.and_eq_true _ _).mp hcond
      exact beq_iff_eq.mp this.2
    rw [hst] at h
    exact absurd h (by decide)
  · rfl

/-- The completion update leaves a terminal row untouched. -/
theorem completeUpdate_terminal (txid now : Nat) (t : Transaction)
    (h : t.status.isTerminal = true) : completeUpdate txid now t = t := by
  unfold completeUpdate
  split
  · next hcond =>
    have hst : t.status = TStatus.processing := by
      have := (Bool.and_eq_true _ _).mp hcond
      exact beq_iff_eq.mp this.2
    rw [hst] at h
    exact absurd h (by decide)
  · rfl

/-- The failure update leaves a terminal row untouched. -/
theorem failUpdate_terminal (txid now : Nat) (msg : String) (t : Transaction)
    (h : t.status.isTerminal = true) : failUpdate txid now msg t = t := by
  unfold failUpdate
  split
  · next hcond =>
    have hst : t.status = TStatus.processing := by
      have := (Bool.and_eq_true _ _).mp hcond
      exact beq_iff_eq.mp this.2
    rw [hst] at h
    exact absurd h (by decide)
  · rfl

/-- Positional view of a single mapped update over the transactions table. -/
theorem getElem?_map_row (f : Transaction → Transaction) (l : List Transaction) (i : Nat)
    (t t' : Transaction) (h : l[i]? = some t) (h' : (l.map f)[i]? = some t') :
    t' = f t := by
  rw [List.getElem?_map, h] at h'
  exact (Option.some_inj.mp h').symm

/-- C5: transaction status transitions are monotonic along the lifecycle
pending, processing, terminal.  Every conditional update of UpdateStatus and
every step of Process is guarded by the required prior status (claim only
from pending, complete and fail only from processing), so across both
operations the rank of a row never decreases and a row already in a terminal
status is never modified at all. -/
theorem status_transitions_monotonic (db : DB) (id : Nat) (st : TStatus) (msg : String)
    (now id1 id2 : Nat) :
    (∀ db', updateStatus db id st msg now = .ok db' →
      ∀ (i : Nat) (t t' : Transaction),
        db.transactions[i]? = some t → db'.transactions[i]? = some t' →
        t.status.rank ≤ t'.status.rank ∧ (t.status.isTerminal = true → t' = t)) ∧
    (∀ db' r, process db id now id1 id2 = .ok (db', r) →
      ∀ (i : Nat) (t t' : Transaction),
        db.transactions[i]? = some t → db'.transactions[i]? = some t' →
        t.status.rank ≤ t'.status.rank ∧ (t.status.isTerminal = true → t' = t)) := by
  constructor
  · intro db' hok i t t' hg hg'
    cases st with
    | pending => exact absurd hok (by simp [updateStatus])
    | processing =>
      rw [updateStatus] at hok
      split at hok
      · simp only [Except.ok.injEq] at hok
        subst hok
        have ht' : t' = claimUpdate id now t := getElem?_map_row _ _ i t t' hg hg'
        subst ht'
        exact ⟨claimUpdate_rank_le id now t, fun hterm => claimUpdate_terminal id now t hterm⟩
      · exact absurd hok (by simp)
    | completed =>
      rw [updateStatus] at hok
      split at hok
      · simp only [Except.ok.injEq] at hok
        subst hok
        have ht' : t' = completeUpdate id now t := getElem?_map_row _ _ i t t' hg hg'
        subst ht'
        exact ⟨completeUpdate_rank_le id now t, fun hterm => completeUpdate_terminal id now t hterm⟩
      · exact absurd hok (by simp)
    | failed =>
      rw [updateStatus] at hok
      split at hok
      · simp only [Except.ok.injEq] at hok
        subst hok
        have ht' : t' = failUpdate id now msg t := getElem?_map_row _ _ i t t' hg hg'
        subst ht'
        exact ⟨failUpdate_rank_le id now msg t, fun hterm => failUpdate_terminal id now msg t hterm⟩
      · exact absurd hok (by simp)
  · intro db' r hok i t t' hg hg'
    have hthrough : ∀ g : Transaction → Transaction,
        (∀ u, u.status.rank ≤ (g u).status.rank) →
        (∀ u, u.status.isTerminal = true → g u = u) →
        db'.transactions = (db.transactions.map (claimUpdate id now)).map g →
        t.status.rank ≤ t'.status.rank ∧ (t.status.isTerminal = true → t' = t) := by
      intro g hg1 hg2 hmap
      have ht' : t' = g (claimUpdate id now t) := by
        rw [hmap, List.getElem?_map, List.getElem?_map, hg] at hg'
        exact (Option.some_inj.mp hg').symm
      subst ht'
      refine ⟨le_trans (claimUpdate_rank_le id now t) (hg1 _), fun hterm => ?_⟩
      rw [claimUpdate_terminal id now t hterm, hg2 t hterm]
    simp only [process] at hok
    split at hok
    · simp only [Except.ok.injEq, Prod.mk.injEq] at hok
      obtain ⟨hdb, -⟩ := hok
      subst hdb
      have htt : t = t' := Option.some_inj.mp (hg.symm.trans hg')
      subst htt
      exact ⟨le_rfl, fun _ => rfl⟩
    · next t0 hfind =>
      split at hok
      · simp only [Except.ok.injEq, Prod.mk.injEq] at hok
        obtain ⟨hdb, -⟩ := hok
        subst hdb
        exact hthrough _ (failUpdate_rank_le id now _) (failUpdate_terminal id now _) rfl
      · split at hok
        · simp only [Except.ok.injEq, Prod.mk.injEq] at hok
          obtain ⟨hdb, -⟩ := hok
          subst hdb
          exact hthrough _ (failUpdate_rank_le id now _) (failUpdate_terminal id now _) rfl
        · split at hok
          · simp only [Except.ok.injEq, Prod.mk.injEq] at hok
            obtain ⟨hdb, -⟩ := hok
            subst hdb
            exact hthrough _ (failUpdate_rank_le id now _) (failUpdate_terminal id now _) rfl
          · split at hok
            · exact absurd hok (by simp)
            · next db3 hcomp =>
              simp only [Except.ok.injEq, Prod.mk.injEq] at hok
              obtain ⟨hdb, -⟩ := hok
              subst hdb
              rw [completeTransaction] at hcomp
              split at hcomp
              · simp only [Except.ok.injEq] at hcomp
                subst hcomp
                exact hthrough _ (completeUpdate_rank_le id now) (completeUpdate_terminal id now) rfl
              · exact absurd hcomp (by simp)

/-! ## Claim C7 -/

/-- C7: no account stores a balance field; every balance the system returns
is derived.  The current balance returned by GetBalance is exactly the sum of
the ledger entry values of the account, and the point-in-time balance
returned by GetBalanceAtTime is exactly the sum of the ledger entry values of
the account restricted to entries created at or before the supplied
timestamp. -/
theorem balance_is_ledger_sum (db : DB) (id now : Nat) (b : AccountBalance)
    (h : getBalance db id now = some b) :
    b.balance = ((db.ledger.filter (fun e => e.accountID == id)).map entryVal).sum ∧
    ∀ (accountID asOf : Nat),
      getBalanceAtTime db accountID asOf =
        ((db.ledger.filter
          (fun e => e.accountID == accountID && decide (e.createdAt ≤ asOf))).map entryVal).sum := by
  constructor
  · rw [getBalance] at h
    cases hfa : findAccount db id with
    | none => rw [hfa] at h; exact absurd h (by simp)
    | some account =>
      rw [hfa] at h
      simp only [Option.some_inj] at h
      subst h
      show sqlSum _ = _
      rw [sqlSum, foldl_add_entryVal, zero_add]
  · intro accountID asOf
    rw [getBalanceAtTime, sqlSum, foldl_add_entryVal, zero_add]

/-- Witness: the account with a 100.00 credit and a 40.00 debit has balance
60, and its balance as of time 6 counts only the first entry. -/
theorem balance_is_ledger_sum_witness :
    getBalance dbLedger 10 99 = some ⟨10, 60, "NOK", 99⟩ ∧
    (60 : ℚ) = ((dbLedger.ledger.filter (fun e => e.accountID == 10)).map entryVal).sum ∧
    getBalanceAtTime dbLedger 10 6 =
      ((dbLedger.ledger.filter
        (fun e => e.accountID == 10 && decide (e.createdAt ≤ 6))).map entryVal).sum := by
  have h : getBalance dbLedger 10 99 = some ⟨10, 60, "NOK", 99⟩ := by with_unfolding_all rfl
  have happ := balance_is_ledger_sum dbLedger 10 99 ⟨10, 60, "NOK", 99⟩ h
  exact ⟨h, happ.1, happ.2 10 6⟩

/-- Witness: completing the processing transaction 5 leaves the failed
transaction 7 untouched, through the conditional update of UpdateStatus. -/
theorem status_transitions_monotonic_witness :
    updateStatus dbMixed 5 TStatus.completed "" 9 = .ok dbMixedDone ∧
    dbMixed.transactions[1]? = some txFailed ∧
    dbMixedDone.transactions[1]? = some txFailed ∧
    txFailed.status.rank ≤ txFailed.status.rank ∧
    (txFailed.status.isTerminal = true → txFailed = txFailed) := by
  have hupd : updateStatus dbMixed 5 TStatus.completed "" 9 = .ok dbMixedDone := by
    with_unfolding_all rfl
  have h := (status_transitions_monotonic dbMixed 5 TStatus.completed "" 9 0 0).1
    dbMixedDone hupd 1 txFailed txFailed (by with_unfolding_all rfl) (by with_unfolding_all rfl)
  exact ⟨hupd, by with_unfolding_all rfl, by with_unfolding_all rfl, h.1, h.2⟩

/-! ## Claim C2, helper lemmas -/

/-- Searching an appended list starts over the second part when the first
part holds no match. -/
theorem find?_append_of_none {p : Transaction → Bool} {l1 : List Transaction}
    (l2 : List Transaction) (h : l1.find? p = none) :
    (l1 ++ l2).find? p = l2.find? p := by
  induction l1 with
  | nil => rfl
  | cons x xs ih =>
    rw [List.find?_cons] at h
    rw [List.cons_append, List.find?_cons]
    split at h
    · exact absurd h (by simp)
    · exact ih h

/-- A list without a match filters to the empty list. -/
theorem filter_eq_nil_of_find?_none {p : Transaction → Bool} {l : List Transaction}
    (h : l.find? p = none) : l.filter p = [] := by
  induction l with
  | nil => rfl
  | cons x xs ih =>
    rw [List.find?_cons] at h
    split at h
    · exact absurd h (by simp)
    · next hx =>
      rw [List.filter_cons]
      rw [if_neg (by simpa using hx)]
      exact ih h

/-! ## Claim C2 -/

/-- C2: the idempotency gateway yields exactly one transaction record per
client key.  If a transaction already exists for the key, CreateTransfer
returns that transaction with its identifier and status and writes nothing.
If the insert loses a race against a concurrent request holding the same key,
the uniqueness violation is answered by re-fetching the row by key and
returning it, leaving exactly one record with the key.  And submitting the
same key twice sequentially returns the same identifier both times with one
record in the store. -/
theorem idempotency_gateway (db : DB) (key : String) (req : CreateTransferRequest)
    (txId p1 p2 now txId2 q1 q2 now2 : Nat) (t r : Transaction) :
    (key ≠ "" → getByIdempotencyKey db key = some t →
      createTransfer db key req txId p1 p2 now none =
        (db, .accepted t.id t.status t.initiatedAt)) ∧
    (key ≠ "" → getByIdempotencyKey db key = none →
      req.validate = .ok () → validateAmount req.amount = .ok () →
      accountChecksOK db req → r.idempotencyKey = key →
      (createTransfer db key req txId p1 p2 now (some r)).2 =
        .accepted r.id r.status r.initiatedAt ∧
      ((createTransfer db key req txId p1 p2 now (some r)).1.transactions.filter
        (fun u => u.idempotencyKey == key)).length = 1) ∧
    (key ≠ "" → getByIdempotencyKey db key = none →
      req.validate = .ok () → validateAmount req.amount = .ok () →
      accountChecksOK db req →
      (createTransfer db key req txId p1 p2 now none).2 =
        .accepted txId TStatus.pending now ∧
      ((createTransfer db key req txId p1 p2 now none).1.transactions.filter
        (fun u => u.idempotencyKey == key)).length = 1 ∧
      createTransfer (createTransfer db key req txId p1 p2 now none).1 key req
          txId2 q1 q2 now2 none =
        ((createTransfer db key req txId p1 p2 now none).1,
          .accepted txId TStatus.pending now)) := by
  refine ⟨?_, ?_, ?_⟩
  · intro hne ht
    have hk : (key == "") = false := beq_eq_false_iff_ne.mpr hne
    simp [createTransfer, hk, ht]
  · intro hne hnone hv hva hacc hrk
    obtain ⟨fa, ta, hfa, hta, hfas, htas, hcur, hrc⟩ := hacc
    have hk : (key == "") = false := beq_eq_false_iff_ne.mpr hne
    have hfind : db.transactions.find? (fun u => u.idempotencyKey == key) = none := hnone
    have hany : (db.transactions ++ [r]).any (fun u => u.idempotencyKey == key) = true := by
      rw [List.any_append]
      simp [hrk]
    have hfetch : (db.transactions ++ [r]).find? (fun u => u.idempotencyKey == key) = some r := by
      rw [find?_append_of_none _ hfind]
      simp [List.find?_cons, hrk]
    have hcount : ((db.transactions ++ [r]).filter
        (fun u => u.idempotencyKey == key)).length = 1 := by
      rw [List.filter_append, filter_eq_nil_of_find?_none hfind]
      simp [hrk]
    simp only [createTransfer, hk, Bool.false_eq_true, if_false, hnone, hv, hva, hfa, hta,
      hfas, htas, hcur, hrc, getByIdempotencyKey, repoCreate, bne_self_eq_false,
      Bool.false_eq_true, if_false, hany, if_true, hfetch, hcount]
    simp only [hfind]
    exact ⟨trivial, hcount⟩
  · intro hne hnone hv hva hacc
    obtain ⟨fa, ta, hfa, hta, hfas, htas, hcur, hrc⟩ := hacc
    have hk : (key == "") = false := beq_eq_false_iff_ne.mpr hne
    have hfind : db.transactions.find? (fun u => u.idempotencyKey == key) = none := hnone
    have hany : db.transactions.any (fun u => u.idempotencyKey == key) = false := by
      rw [List.any_eq_false]
      intro u hu
      have := List.find?_eq_none.mp hfind u hu
      simpa using this
    have hcount : ∀ w : Transaction, w.idempotencyKey = key →
        ((db.transactions ++ [w]).filter (fun u => u.idempotencyKey == key)).length = 1 := by
      intro w hw
      rw [List.filter_append, filter_eq_nil_of_find?_none hfind]
      simp [hw]
    have hfetch : ∀ w : Transaction, w.idempotencyKey = key →
        (db.transactions ++ [w]).find? (fun u => u.idempotencyKey == key) = some w := by
      intro w hw
      rw [find?_append_of_none _ hfind]
      simp [List.find?_cons, hw]
    simp only [createTransfer, hk, Bool.false_eq_true, if_false, getByIdempotencyKey, hfind,
      hv, hva, hfa, hta, hfas, htas, hcur, hrc, repoCreate, bne_self_eq_false, hany,
      Bool.false_eq_true, if_false]
    refine ⟨trivial, hcount _ rfl, ?_⟩
    rw [hfetch _ rfl]

/-- Witness: creating a transfer with key idem-1 on the two-account store,
then submitting the identical request again: one record, same identifier. -/
theorem idempotency_gateway_witness :
    validateAmount "100.00" = Except.ok () ∧
    ((createTransfer dbTwoAccounts "idem-1" ⟨10, 20, "100.00", "NOK", "rent"⟩ 5 6 7 11 none).2 =
      .accepted 5 TStatus.pending 11 ∧
    ((createTransfer dbTwoAccounts "idem-1" ⟨10, 20, "100.00", "NOK", "rent"⟩ 5 6 7 11
        none).1.transactions.filter (fun u => u.idempotencyKey == "idem-1")).length = 1 ∧
    createTransfer
        (createTransfer dbTwoAccounts "idem-1" ⟨10, 20, "100.00", "NOK", "rent"⟩ 5 6 7 11 none).1
        "idem-1" ⟨10, 20, "100.00", "NOK", "rent"⟩ 8 9 12 13 none =
      ((createTransfer dbTwoAccounts "idem-1" ⟨10, 20, "100.00", "NOK", "rent"⟩ 5 6 7 11 none).1,
        .accepted 5 TStatus.pending 11)) := by
  have hva : validateAmount "100.00" = Except.ok () := by with_unfolding_all rfl
  refine ⟨hva, (idempotency_gateway dbTwoAccounts "idem-1" ⟨10, 20, "100.00", "NOK", "rent"⟩
    5 6 7 11 8 9 12 13 txDone txDone).2.2 (by with_unfolding_all exact fun hc => by simp at hc)
    rfl (by with_unfolding_all rfl) hva ?_⟩
  exact ⟨_, _, rfl, rfl, rfl, rfl, rfl, rfl⟩

/-! ## Claim C8 -/

/-- A request that passes Validate has distinct source and destination. -/
theorem validate_ok_ne (r : CreateTransferRequest) (h : r.validate = .ok ()) :
    r.fromAccountID ≠ r.toAccountID := by
  unfold CreateTransferRequest.validate at h
  split_ifs at h with h1 h2 h3 h4 h5 <;> try simp at h
  intro he
  exact h3 (by simp [he])

/-- C8: every transfer intent that fails an intake check of CreateTransfer,
that is an equal source and destination, an amount the validator rejects, a
missing or inactive source or destination account, or a currency mismatch
between the accounts or with the requested currency, is answered with an
error response and changes nothing: no transaction record and no transaction
parties are created, the store coming back exactly as it was. -/
theorem intake_validation_creates_nothing (db : DB) (key : String)
    (req : CreateTransferRequest) (txId p1 p2 now : Nat)
    (hnone : getByIdempotencyKey db key = none)
    (hfail :
      req.fromAccountID = req.toAccountID ∨
      validateAmount req.amount ≠ .ok () ∨
      (∀ fa, findAccount db req.fromAccountID = some fa → fa.status ≠ "active") ∨
      (∀ ta, findAccount db req.toAccountID = some ta → ta.status ≠ "active") ∨
      (∀ fa ta, findAccount db req.fromAccountID = some fa →
        findAccount db req.toAccountID = some ta →
        fa.currency ≠ ta.currency ∨ req.currency ≠ fa.currency)) :
    ∃ code msg, createTransfer db key req txId p1 p2 now none =
      (db, HandlerOut.rejected code msg) := by
  unfold createTransfer
  by_cases hk : (key == "") = true
  · rw [if_pos hk]
    exact ⟨400, _, rfl⟩
  · rw [if_neg hk, hnone]
    cases hv : req.validate with
    | error e => exact ⟨400, e, rfl⟩
    | ok u =>
      cases u
      cases hva : validateAmount req.amount with
      | error e => exact ⟨400, e, rfl⟩
      | ok u =>
        cases u
        cases hfa : findAccount db req.fromAccountID with
        | none => exact ⟨400, _, rfl⟩
        | some fa =>
          dsimp only
          by_cases hfas0 : (fa.status != "active") = true
          · rw [if_pos hfas0]
            exact ⟨400, _, rfl⟩
          · rw [if_neg hfas0]
            have hfas : fa.status = "active" := by simpa using hfas0
            cases hta : findAccount db req.toAccountID with
            | none => exact ⟨400, _, rfl⟩
            | some ta =>
              dsimp only
              by_cases htas0 : (ta.status != "active") = true
              · rw [if_pos htas0]
                exact ⟨400, _, rfl⟩
              · rw [if_neg htas0]
                have htas : ta.status = "active" := by simpa using htas0
                by_cases hcur0 : (fa.currency != ta.currency) = true
                · rw [if_pos hcur0]
                  exact ⟨400, _, rfl⟩
                · rw [if_neg hcur0]
                  have hcur : fa.currency = ta.currency := by simpa using hcur0
                  by_cases hrc0 : (req.currency != fa.currency) = true
                  · rw [if_pos hrc0]
                    exact ⟨400, _, rfl⟩
                  · have hrc : req.currency = fa.currency := by simpa using hrc0
                    exfalso
                    rcases hfail with h1 | h2 | h3 | h4 | h5
                    · exact validate_ok_ne req hv h1
                    · exact h2 hva
                    · exact h3 fa hfa hfas
                    · exact h4 ta hta htas
                    · rcases h5 fa ta hfa hta with hc | hc
                      · exact hc hcur
                      · exact hc hrc

/-- Witness: a request naming the same account as source and destination is
rejected and the store is returned unchanged. -/
theorem intake_validation_creates_nothing_witness :
    getByIdempotencyKey dbTwoAccounts "idem-2" = none ∧
    ∃ code msg,
      createTransfer dbTwoAccounts "idem-2" ⟨10, 10, "50.00", "NOK", ""⟩ 5 6 7 11 none =
        (dbTwoAccounts, HandlerOut.rejected code msg) :=
  ⟨rfl, intake_validation_creates_nothing dbTwoAccounts "idem-2"
    ⟨10, 10, "50.00", "NOK", ""⟩ 5 6 7 11 rfl (Or.inl rfl)⟩

/-! ## Claim C4 -/

/-- C4: the failing input for the insufficient-funds rule.  The exact ledger
balance of the source account (4398046511104, two to the power 42) is
strictly below the transfer amount 4398046511104.0001, yet the engine run
completes the transaction and writes its two ledger entries, because
getBalanceForUpdate and hasSufficientFunds funnel both sides of the
comparison through binary64 where the two values coincide.  Under the
specification the claimed transfer had to move to failed with zero entries. -/
theorem insufficient_funds_float_completes :
    ledgerSumQ dbTight 10 < (decValue "4398046511104.0001").getD 0 ∧
    (process dbTight 1 60 51 52).map
      (fun dr => (dr.2, dr.1.transactions.map (fun t => t.status),
        (dr.1.ledger.filter (fun e => e.transactionID == 1)).length)) =
      Except.ok ({ success := true, errorMessage := "" }, [TStatus.completed], 2) := by
  constructor
  · have h1 : ledgerSumQ dbTight 10 = 4398046511104 := by with_unfolding_all rfl
    have h2 : (decValue "4398046511104.0001").getD 0 = 4398046511104 + 1 / 10000 := by
      with_unfolding_all rfl
    rw [h1, h2]
    norm_num
  · with_unfolding_all rfl

/-! ## Claim C6 -/

/-- C6: binary floating point participates in the funds comparison of the
engine.  At the failing input the funds check passes (hasSufficientFunds
returns true through the float64 path of getBalanceForUpdate and the
Sscanf parse), although the exact decimal balance is strictly below the
exact decimal amount, which an exact-decimal comparison would reject. -/
theorem funds_check_uses_binary_float :
    hasSufficientFunds (getBalanceForUpdate dbTight 10) "4398046511104.0001" = true ∧
    ledgerSumQ dbTight 10 < (decValue "4398046511104.0001").getD 0 := by
  constructor
  · with_unfolding_all rfl
  · have h1 : ledgerSumQ dbTight 10 = 4398046511104 := by with_unfolding_all rfl
    have h2 : (decValue "4398046511104.0001").getD 0 = 4398046511104 + 1 / 10000 := by
      with_unfolding_all rfl
    rw [h1, h2]
    norm_num

/-! ## Claim C9 -/

/-- C9: the engine does not bypass the funds check for system accounts.  The
source of the claimed transfer in dbEquity is the bank equity account, for
which IsSystemAccount returns true, yet Process fails the transfer with the
insufficient-funds reason and writes no ledger entries: no code path ever
consults IsSystemAccount. -/
theorem system_account_funds_check_not_bypassed :
    (findAccount dbEquity 70).map Account.isSystemAccount = some true ∧
    (process dbEquity 2 20 61 62).map
      (fun dr => (dr.2, dr.1.transactions.map (fun t => (t.status, t.errorMessage)),
        dr.1.ledger.length)) =
      Except.ok ({ success := false, errorMessage := "insufficient funds" },
        [(TStatus.failed, "insufficient funds")], 0) := by
  constructor
  · with_unfolding_all rfl
  · with_unfolding_all rfl

/-! ## Claim C10 -/

/-- C10: validateAmount accepts the strings NaN and Inf, because
strconv.ParseFloat parses both and the rejection test val <= 0 is false for
NaN and for positive infinity, so such an amount passes intake validation
and a transaction record carrying it is created. -/
theorem validateAmount_accepts_nan_inf :
    validateAmount "NaN" = Except.ok () ∧
    validateAmount "Inf" = Except.ok () ∧
    createTransfer dbTwoAccounts "key-nan" ⟨10, 20, "NaN", "NOK", ""⟩ 5 6 7 11 none =
      ({ dbTwoAccounts with
          transactions :=
            [{ id := 5, idempotencyKey := "key-nan", txType := "transfer",
               status := TStatus.pending, initiatedAt := 11, amount := "NaN",
               currency := "NOK", fromAccountID := 10, toAccountID := 20 }]
          parties :=
            [{ id := 6, transactionID := 5, accountID := 10, role := "source" },
             { id := 7, transactionID := 5, accountID := 20, role := "destination" }] },
        HandlerOut.accepted 5 TStatus.pending 11) := by
  refine ⟨by with_unfolding_all rfl, by with_unfolding_all rfl, by with_unfolding_all rfl⟩

end Banking